import Mathlib

/-!
Shallow embedding of the Transform stage of the retail ETL pipeline
(`src/etl/transform.py`), together with proofs about the claims of its
specification.

Modelling conventions:
* A pandas numeric column cell is `Option ℚ`: `none` models `NaN`
  (the result of a failed `pd.to_numeric(..., errors='coerce')` or a
  missing value); `some q` models a finite float, represented exactly
  as a rational.
* A parsed date cell is `Option SDate` (`pd.to_datetime(..., errors='coerce')`).
* Comparisons follow pandas/IEEE semantics: any comparison with `NaN`
  is false, so `NaN != x` is true (this matters for discrepancy counting).
* Values produced by divisions that can overflow to IEEE infinities or
  `NaN` live in `PVal` (finite rational, +inf, -inf, or NaN).
* Python exceptions raised on structurally invalid input (missing column,
  empty input) are modelled as `Except.error (e : DataError)`, the name the
  specification's error taxonomy gives this class of fatal failures.
* `datetime.utcnow()` is modelled by an explicit clock argument `now : ℕ`
  threaded into every builder that stamps rows or tables with it.
-/

namespace RetailETL

/-! ### Kernel-computable primitives

The built-in `String` comparison/trimming functions and the `Rat`
arithmetic operations are defined by well-founded recursion (or marked
irreducible), so closed instances of them cannot be evaluated inside
proofs.  The transform works on small, concrete values in the witnesses
below, so the embedding uses structurally recursive equivalents: a
fuel-based Euclid gcd (provably equal to `Nat.gcd`), rational
operations built on `Rat.maybeNormalize`, character-list string
utilities, and an insertion sort. -/

def gcdGo : ℕ → ℕ → ℕ → ℕ
  | 0, _, b => b
  | f + 1, a, b => if a = 0 then b else gcdGo f (b % a) a

/-- Structurally recursive Euclidean gcd. -/
def redGcd (a b : ℕ) : ℕ := gcdGo (a + 1) a b

theorem gcdGo_eq (f : ℕ) : ∀ a b, a < f → gcdGo f a b = Nat.gcd a b := by
  induction f with
  | zero => intro a b h; omega
  | succ f ih =>
    intro a b h
    by_cases ha : a = 0
    · subst ha; simp [gcdGo]
    · rw [gcdGo, if_neg ha,
        ih (b % a) a (by have := Nat.mod_lt b (Nat.pos_of_ne_zero ha); omega)]
      exact (Nat.gcd_rec a b).symm

theorem redGcd_eq (a b : ℕ) : redGcd a b = Nat.gcd a b :=
  gcdGo_eq _ a b (Nat.lt_succ_self a)

/-- Normalised rational `n / d`, evaluable by kernel reduction. -/
def qNorm (n : ℤ) (d : ℕ) (dnz : d ≠ 0) : ℚ :=
  Rat.maybeNormalize n d (redGcd n.natAbs d)
    (Rat.normalize.den_nz dnz (redGcd_eq ..))
    (Rat.normalize.reduced dnz (redGcd_eq ..))

/-- Rational addition (same value as `Rat.add`). -/
def qAdd (a b : ℚ) : ℚ :=
  qNorm (a.num * b.den + b.num * a.den) (a.den * b.den)
    (Nat.mul_ne_zero a.den_nz b.den_nz)

/-- Rational subtraction (same value as `Rat.sub`). -/
def qSub (a b : ℚ) : ℚ :=
  qNorm (a.num * b.den - b.num * a.den) (a.den * b.den)
    (Nat.mul_ne_zero a.den_nz b.den_nz)

/-- Rational multiplication (same value as `Rat.mul`). -/
def qMul (a b : ℚ) : ℚ :=
  qNorm (a.num * b.num) (a.den * b.den) (Nat.mul_ne_zero a.den_nz b.den_nz)

/-- The rational `n / d` for integer operands (0 when `d = 0`). -/
def qDivInt (n d : ℤ) : ℚ :=
  if hd : 0 < d then qNorm n d.toNat (by omega)
  else if hd' : d < 0 then qNorm (-n) (-d).toNat (by omega)
  else 0

/-- Rational division (same value as `Rat.div`; 0 on a zero divisor,
but every call site guards the divisor first). -/
def qDiv (a b : ℚ) : ℚ :=
  qDivInt (a.num * b.den) (b.num * a.den)

/-- Character-list lexicographic `≤` (Python string comparison is by
code point). -/
def strLeChars : List Char → List Char → Bool
  | [], _ => true
  | _ :: _, [] => false
  | a :: as, b :: bs => if a < b then true else if b < a then false else strLeChars as bs

/-- Python `<=` on strings. -/
def strLeB (s t : String) : Bool :=
  strLeChars s.data t.data

/-- Python `str.lower()` (ASCII, as in this dataset). -/
def strLower (s : String) : String :=
  String.mk (s.data.map Char.toLower)

/-- Python `str.strip()`. -/
def strTrim (s : String) : String :=
  String.mk (((s.data.dropWhile Char.isWhitespace).reverse.dropWhile Char.isWhitespace).reverse)

/-- Python `s[:n]`. -/
def strTake (s : String) (n : ℕ) : String :=
  String.mk (s.data.take n)

/-- Insert into a sorted list. -/
def insertLe {α : Type} (le : α → α → Bool) (a : α) : List α → List α
  | [] => [a]
  | b :: t => if le a b then a :: b :: t else b :: insertLe le a t

/-- Insertion sort (the model of the sorting done by `sorted(...)`,
`groupby`'s key ordering and `sort_values`). -/
def insertionSort {α : Type} (le : α → α → Bool) : List α → List α
  | [] => []
  | a :: t => insertLe le a (insertionSort le t)

/-- Ascending sort of a list of strings. -/
def sortStrings (l : List String) : List String :=
  insertionSort strLeB l

/-- Column-name standardisation: `col.strip().lower().replace(' ', '_')`. -/
def normalizeCol (s : String) : String :=
  String.mk (((strTrim s).data.map Char.toLower).map (fun c => if c = ' ' then '_' else c))

/-- One step of Python's `str.title()`: uppercase an alphabetic character
that follows a non-alphabetic one, lowercase the rest. -/
def titleChar (prevAlpha : Bool) (c : Char) : Char :=
  if c.isAlpha then (if prevAlpha then c.toLower else c.toUpper) else c

def titleAux : Bool → List Char → List Char
  | _, [] => []
  | prevAlpha, c :: cs => titleChar prevAlpha c :: titleAux c.isAlpha cs

/-- Python's `str.title()`. -/
def strTitle (s : String) : String :=
  String.mk (titleAux false s.data)

/-- pandas multiplication of two possibly-NaN cells: NaN propagates. -/
def pmul (a b : Option ℚ) : Option ℚ :=
  match a, b with
  | some x, some y => some (qMul x y)
  | _, _ => none

/-- pandas `==` on two possibly-NaN cells: any comparison involving NaN
is false. -/
def pEqB (a b : Option ℚ) : Bool :=
  match a, b with
  | some x, some y => x == y
  | _, _ => false

/-- pandas `Series.sum()`: NaN cells are skipped, the empty sum is 0. -/
def sumSkipNa (l : List (Option ℚ)) : ℚ :=
  (l.filterMap id).foldl qAdd 0

/-- pandas `Series.mean()`: NaN cells are skipped; all-NaN (or empty)
input yields NaN. -/
def meanSkipNa (l : List (Option ℚ)) : Option ℚ :=
  let v := l.filterMap id
  if v.length = 0 then none else some (qDivInt (v.foldl qAdd 0).num ((v.foldl qAdd 0).den * v.length))

/-- Mean of a non-nullable integer column (NaN only when empty). -/
def meanInt (l : List ℤ) : Option ℚ :=
  if l.length = 0 then none else some (qDivInt l.sum l.length)

/-- Round to the nearest integer, ties to even (IEEE/numpy rounding, used
by `Series.round`). -/
def roundHE (q : ℚ) : ℤ :=
  let f := Rat.floor q
  let r := qSub q (Rat.ofInt f)
  if r < qDivInt 1 2 then f
  else if qDivInt 1 2 < r then f + 1
  else if f % 2 = 0 then f else f + 1

/-- `Series.round(2)`: round to two decimal places, ties to even. -/
def round2 (q : ℚ) : ℚ :=
  qDivInt (roundHE (qMul q (Rat.ofInt 100))) 100

/-- A float cell that may hold an IEEE infinity or NaN (the possible
results of a float division). -/
inductive PVal where
  | num (q : ℚ)
  | pinf
  | ninf
  | nan
deriving DecidableEq, Inhabited

/-- `(a / b * 100).round(2)` under IEEE division semantics: division by
zero yields a signed infinity (or NaN for 0/0); `round` leaves
non-finite values unchanged. -/
def pctDiv (a b : ℚ) : PVal :=
  if b = 0 then
    (if 0 < a then .pinf else if a < 0 then .ninf else .nan)
  else .num (round2 (qMul (qDiv a b) (Rat.ofInt 100)))

/-- `100 - x` on a possibly-non-finite percentage. -/
def sub100 : PVal → PVal
  | .num q => .num (qSub (Rat.ofInt 100) q)
  | .pinf => .ninf
  | .ninf => .pinf
  | .nan => .nan

/-- A calendar date (proleptic Gregorian), the model of a day-resolution
`pd.Timestamp`. -/
structure SDate where
  year : ℕ
  month : ℕ
  day : ℕ
deriving DecidableEq, Inhabited

/-- Lexicographic order on dates, as a boolean. -/
def sdLE (a b : SDate) : Bool :=
  if a.year ≠ b.year then decide (a.year < b.year)
  else if a.month ≠ b.month then decide (a.month < b.month)
  else decide (a.day ≤ b.day)

/-- Minimum of a list of dates with a given starting point
(`Series.min` over a non-empty column). -/
def minSDate (d : SDate) (l : List SDate) : SDate :=
  l.foldl (fun a b => if sdLE a b then a else b) d

/-- Maximum of a list of dates with a given starting point. -/
def maxSDate (d : SDate) (l : List SDate) : SDate :=
  l.foldl (fun a b => if sdLE b a then a else b) d

/-- `strftime('%Y%m%d')` cast to int. -/
def dateKey (d : SDate) : ℕ :=
  d.year * 10000 + d.month * 100 + d.day

def isLeap (y : ℕ) : Bool :=
  y % 4 == 0 && (y % 100 != 0 || y % 400 == 0)

def daysInMonth (y m : ℕ) : ℕ :=
  match m with
  | 2 => if isLeap y then 29 else 28
  | 4 => 30 | 6 => 30 | 9 => 30 | 11 => 30
  | _ => 31

def monthName (m : ℕ) : String :=
  match m with
  | 1 => "January" | 2 => "February" | 3 => "March" | 4 => "April"
  | 5 => "May" | 6 => "June" | 7 => "July" | 8 => "August"
  | 9 => "September" | 10 => "October" | 11 => "November" | _ => "December"

/-- Name of a pandas weekday number (0 = Monday). -/
def dayNameOf (dow : ℕ) : String :=
  match dow with
  | 0 => "Monday" | 1 => "Tuesday" | 2 => "Wednesday" | 3 => "Thursday"
  | 4 => "Friday" | 5 => "Saturday" | _ => "Sunday"

/-- Ordinal of the day within its year (Jan 1 ↦ 1). -/
def dayOfYear (d : SDate) : ℕ :=
  (List.range (d.month - 1)).foldl (fun acc mi => acc + daysInMonth d.year (mi + 1)) 0 + d.day

/-- Days in all years strictly before year `y` (proleptic Gregorian). -/
def daysBeforeYear (y : ℕ) : ℕ :=
  365 * (y - 1) + (y - 1) / 4 + (y - 1) / 400 - (y - 1) / 100

/-- Rata die day number (0001-01-01 ↦ 1). -/
def rataDie (d : SDate) : ℕ :=
  daysBeforeYear d.year + dayOfYear d

/-- pandas `dayofweek`: 0 = Monday … 6 = Sunday.  Rata die 1 was a Monday. -/
def dowOf (d : SDate) : ℕ :=
  (rataDie d + 6) % 7

/-- Number of ISO weeks in a year: 53 if Jan 1 falls on a Thursday, or on
a Wednesday in a leap year; else 52. -/
def weeksInISOYear (y : ℕ) : ℕ :=
  let jan1 := dowOf ⟨y, 1, 1⟩
  if jan1 == 3 || (isLeap y && jan1 == 2) then 53 else 52

/-- ISO-8601 week number (`dt.isocalendar().week`). -/
def isoWeek (d : SDate) : ℕ :=
  let w := (dayOfYear d + 10 - (dowOf d + 1)) / 7
  if w = 0 then weeksInISOYear (d.year - 1)
  else if w = 53 && weeksInISOYear d.year == 52 then 1
  else w

/-- The specification's taxonomy name for a fatal structural-input
failure (a Python exception escaping the transform). -/
inductive DataError where
  | missingColumn (col : String)
  | emptyInput (what : String)
deriving DecidableEq

/-- A raw retail-sales record (§3 Raw Sales Record) as it stands right
after the coercions `pd.to_datetime` / `pd.to_numeric` are applied:
each coercible field is represented by its coercion result. -/
structure RawSalesRow where
  transaction_id : ℤ
  date : Option SDate
  customer_id : String
  gender : String
  age : ℤ
  product_category : String
  quantity : Option ℚ
  price_per_unit : Option ℚ
  total_amount : Option ℚ
  extracted_at : String
  source : String
deriving DecidableEq, Inhabited

/-- A raw sales DataFrame: the set of column names actually present
(subscripting a missing one raises) plus the typed rows. -/
structure SalesFrame where
  cols : List String
  rows : List RawSalesRow
deriving DecidableEq, Inhabited

/-- A cleaned sales row (output schema of `clean_retail_sales`). -/
structure CleanSalesRow where
  transaction_id : ℤ
  date : SDate
  customer_id : String
  gender : String
  age : ℤ
  product_category : String
  quantity : Option ℚ
  price_per_unit : Option ℚ
  total_amount : Option ℚ
  extracted_at : String
  source : String
  row_hash : String
deriving DecidableEq, Inhabited

/-- The MD5 row hash of `clean_retail_sales`, modelled by its pre-image
string `f"{transaction_id}_{date}_{customer_id}"` (the digest step is a
fixed injection and carries no further information). -/
def salesRowHash (tid : ℤ) (d : SDate) (cid : String) : String :=
  toString tid ++ "_" ++ toString d.year ++ "-" ++ toString d.month ++ "-"
    ++ toString d.day ++ "_" ++ cid

/-- The columns `clean_retail_sales` subscripts unconditionally, in
program order. -/
def requiredSalesCols : List String :=
  ["date", "quantity", "price_per_unit", "total_amount", "gender",
   "product_category", "age"]

/-- Date parsing (transform.py lines 42–48): keep each row's
`pd.to_datetime` result, dropping rows whose date failed to parse. -/
def parseDates (rows : List RawSalesRow) : List (RawSalesRow × SDate) :=
  rows.filterMap (fun r => r.date.map (fun d => (r, d)))

/-- The `quantity > 0` filter (line 56): a NaN quantity fails the
comparison and is removed too. -/
def filterPosQ (l : List (RawSalesRow × SDate)) : List (RawSalesRow × SDate) :=
  l.filter (fun rd => match rd.1.quantity with | some q => decide (0 < q) | none => false)

/-- The recomputation block (lines 58–74): compute
`quantity * price_per_unit` per row, count rows on which pandas `!=`
(NaN-unequal) says the source total disagrees, and if any disagree
overwrite the whole `total_amount` column with the computed one. -/
def recomputeTotals (l : List (RawSalesRow × SDate)) : List (RawSalesRow × SDate) :=
  if 0 < l.countP (fun rd => !pEqB rd.1.total_amount (pmul rd.1.quantity rd.1.price_per_unit)) then
    l.map (fun rd => ({ rd.1 with total_amount := pmul rd.1.quantity rd.1.price_per_unit }, rd.2))
  else l

/-- Gender/category text standardisation (lines 77–82). -/
def styleRow (rd : RawSalesRow × SDate) : RawSalesRow × SDate :=
  ({ rd.1 with gender := strTitle (strTrim rd.1.gender),
               product_category := strTitle (strTrim rd.1.product_category) }, rd.2)

/-- Age clamping to [18, 100] (line 85). -/
def clipAgeRow (rd : RawSalesRow × SDate) : RawSalesRow × SDate :=
  ({ rd.1 with age := min 100 (max 18 rd.1.age) }, rd.2)

/-- Assemble the cleaned output row, with the row hash (lines 88–93). -/
def finalizeRow (rd : RawSalesRow × SDate) : CleanSalesRow :=
  { transaction_id := rd.1.transaction_id
    date := rd.2
    customer_id := rd.1.customer_id
    gender := rd.1.gender
    age := rd.1.age
    product_category := rd.1.product_category
    quantity := rd.1.quantity
    price_per_unit := rd.1.price_per_unit
    total_amount := rd.1.total_amount
    extracted_at := rd.1.extracted_at
    source := rd.1.source
    row_hash := salesRowHash rd.1.transaction_id rd.2 rd.1.customer_id }

/-- The row-level transformation pipeline of `clean_retail_sales`, in
source order. -/
def cleanSalesRows (rows : List RawSalesRow) : List CleanSalesRow :=
  (((recomputeTotals (filterPosQ (parseDates rows))).map styleRow).map clipAgeRow).map
    finalizeRow

/-- `clean_retail_sales` (transform.py lines 30–96).  Subscripting an
absent column raises (the specification's `DataError`); the first
subscript of each required column occurs in the order of
`requiredSalesCols`, so the first missing one in that order determines
the error.  `df.apply` (the row-hash step) only evaluates its row
lambda when rows survive, so `transaction_id`/`customer_id` are
required only then. -/
def clean_retail_sales (f : SalesFrame) : Except DataError (List CleanSalesRow) :=
  let cols := f.cols.map normalizeCol
  match requiredSalesCols.find? (fun c => !cols.contains c) with
  | some c => .error (.missingColumn c)
  | none =>
    let out := cleanSalesRows f.rows
    if out ≠ [] ∧ "transaction_id" ∉ cols then .error (.missingColumn "transaction_id")
    else if out ≠ [] ∧ "customer_id" ∉ cols then .error (.missingColumn "customer_id")
    else .ok out

/-- A raw catalog product record (§3 Raw Product Record), with `price`
already represented by its `pd.to_numeric` coercion result and the two
rating fields as possibly-missing numerics. -/
structure RawProductRow where
  id : ℤ
  title : String
  price : Option ℚ
  description : String
  category : String
  image : String
  rating_rate : Option ℚ
  rating_count : Option ℚ
  extracted_at : String
  source : String
deriving DecidableEq, Inhabited

structure ProductFrame where
  cols : List String
  rows : List RawProductRow
deriving DecidableEq, Inhabited

/-- A cleaned product row (output schema of `clean_api_products`). -/
structure CleanProductRow where
  id : ℤ
  title : String
  price : Option ℚ
  description : String
  category : String
  image : String
  rating_rate : Option ℚ
  rating_count : Option ℚ
  extracted_at : String
  source : String
deriving DecidableEq, Inhabited

/-- `clean_api_products` (transform.py lines 99–127): coerce price,
title-case categories, truncate descriptions to 500 characters, trim
titles, and clip the rating fields (`clip` leaves NaN cells as NaN).
Missing subscripted columns raise, in program order. -/
def clean_api_products (f : ProductFrame) : Except DataError (List CleanProductRow) :=
  let cols := f.cols.map normalizeCol
  if "price" ∉ cols then .error (.missingColumn "price") else
  if "category" ∉ cols then .error (.missingColumn "category") else
  if "description" ∉ cols then .error (.missingColumn "description") else
  if "title" ∉ cols then .error (.missingColumn "title") else
  if "rating_rate" ∉ cols then .error (.missingColumn "rating_rate") else
  if "rating_count" ∉ cols then .error (.missingColumn "rating_count") else
  .ok (f.rows.map (fun r =>
    { id := r.id
      title := strTrim r.title
      price := r.price
      description := strTake r.description 500
      category := strTitle (strTrim r.category)
      image := r.image
      rating_rate := r.rating_rate.map
        (fun q => if q < 0 then 0 else if Rat.ofInt 5 < q then Rat.ofInt 5 else q)
      rating_count := r.rating_count.map (fun q => if q < 0 then 0 else q)
      extracted_at := r.extracted_at
      source := r.source }))

/-- One row of the Date dimension. -/
structure DateRow where
  full_date : SDate
  date_key : ℕ
  year : ℕ
  quarter : ℕ
  month : ℕ
  month_name : String
  week_of_year : ℕ
  day_of_month : ℕ
  day_of_week : ℕ
  day_name : String
  is_weekend : Bool
  fiscal_year : ℕ
  fiscal_quarter : ℤ
deriving DecidableEq, Inhabited

/-- All attributes of a Date-dimension row, derived from the date exactly
as transform.py lines 151–166 does (the fiscal quarter uses Python's
`(month - 10) % 12 // 3 + 1`, whose `%` is `Int.emod` and whose `//`
agrees with `Int.div` on the non-negative remainder). -/
def mkDateRow (d : SDate) : DateRow :=
  { full_date := d
    date_key := dateKey d
    year := d.year
    quarter := (d.month - 1) / 3 + 1
    month := d.month
    month_name := monthName d.month
    week_of_year := isoWeek d
    day_of_month := d.day
    day_of_week := dowOf d
    day_name := dayNameOf (dowOf d)
    is_weekend := dowOf d == 5 || dowOf d == 6
    fiscal_year := if 10 ≤ d.month then d.year + 1 else d.year
    fiscal_quarter := ((d.month : ℤ) - 10).emod 12 / 3 + 1 }

/-- All days of one calendar year, in order. -/
def datesOfYear (y : ℕ) : List SDate :=
  (List.range 12).flatMap (fun mi =>
    (List.range (daysInMonth y (mi + 1))).map (fun di => ⟨y, mi + 1, di + 1⟩))

/-- `build_dim_date` (transform.py lines 134–172): one row per calendar
day from Jan 1 of the minimum sale year to Dec 31 of the maximum sale
year.  On an empty input the min/max of the date column is `NaT` and the
range construction raises — the specification's `DataError` for an empty
required input.  Given a non-empty input it cannot fail. -/
def build_dim_date (rows : List CleanSalesRow) : Except DataError (List DateRow) :=
  match rows with
  | [] => .error (.emptyInput "retail_sales")
  | r :: rs =>
    let minD := minSDate r.date (rs.map (fun x => x.date))
    let maxD := maxSDate r.date (rs.map (fun x => x.date))
    .ok (((List.range (maxD.year + 1 - minD.year)).flatMap
      (fun k => datesOfYear (minD.year + k))).map mkDateRow)

/-- One row of the Customer dimension (SCD Type 2 candidate). -/
structure CustomerRow where
  customer_id : String
  gender : String
  age : ℤ
  first_purchase_date : SDate
  last_purchase_date : SDate
  total_transactions : ℕ
  customer_key : ℕ
  effective_start_date : SDate
  effective_end_date : SDate
  is_current : Bool
  version : ℕ
  row_hash : String
  age_group : Option String
  customer_segment : Option String
deriving DecidableEq, Inhabited

/-- A dimension table stamped with a constant `_loaded_at` column
(`datetime.utcnow()`), modelled at table level since every row receives
the same clock value. -/
structure CustomerTable where
  rows : List CustomerRow
  loadedAt : ℕ
deriving DecidableEq, Inhabited

/-- `pd.cut(age, bins=[0,25,35,45,55,65,100], labels=[...])`: half-open
`(lo, hi]` buckets; values outside `(0, 100]` get NaN. -/
def ageGroupOf (a : ℤ) : Option String :=
  if 0 < a ∧ a ≤ 25 then some "18-25"
  else if 25 < a ∧ a ≤ 35 then some "26-35"
  else if 35 < a ∧ a ≤ 45 then some "36-45"
  else if 45 < a ∧ a ≤ 55 then some "46-55"
  else if 55 < a ∧ a ≤ 65 then some "56-65"
  else if 65 < a ∧ a ≤ 100 then some "65+"
  else none

/-- `pd.cut(total_transactions, bins=[0,1,3,5,inf], labels=[...])`. -/
def segmentOf (t : ℕ) : Option String :=
  if 0 < t ∧ t ≤ 1 then some "New"
  else if 1 < t ∧ t ≤ 3 then some "Occasional"
  else if 3 < t ∧ t ≤ 5 then some "Regular"
  else some "Loyal"

/-- The ascending list of distinct customer ids — the group keys of
`df.groupby('customer_id')`, which sorts keys (`sort=True` default). -/
def sortedUniqueIds (rows : List CleanSalesRow) : List String :=
  sortStrings ((rows.map (fun r => r.customer_id)).dedup)

/-- The rows of one customer_id group, in input order (pandas groups
preserve the original row order internally). -/
def customerGroup (rows : List CleanSalesRow) (id : String) : List CleanSalesRow :=
  rows.filter (fun r => r.customer_id == id)

/-- One aggregated Customer-dimension row (transform.py lines 183–218):
gender/age are the group's *first* values, purchase dates its min/max,
`total_transactions` the distinct transaction count; surrogate key is
the 1-based position of the id among the sorted group keys. -/
def mkCustomerRow (rows : List CleanSalesRow) (idx : ℕ) (id : String) : CustomerRow :=
  let g := customerGroup rows id
  let fr := g.headI
  let dates := g.map (fun r => r.date)
  let firstP := minSDate (dates.headI) dates
  let lastP := maxSDate (dates.headI) dates
  let tt := (g.map (fun r => r.transaction_id)).dedup.length
  { customer_id := id
    gender := fr.gender
    age := fr.age
    first_purchase_date := firstP
    last_purchase_date := lastP
    total_transactions := tt
    customer_key := idx + 1
    effective_start_date := firstP
    effective_end_date := ⟨9999, 12, 31⟩
    is_current := true
    version := 1
    row_hash := id ++ "_" ++ fr.gender ++ "_" ++ toString fr.age
    age_group := ageGroupOf fr.age
    customer_segment := segmentOf tt }

/-- `build_dim_customer` (transform.py lines 175–223). -/
def build_dim_customer (rows : List CleanSalesRow) (now : ℕ) : CustomerTable :=
  { rows := (sortedUniqueIds rows).enum.map (fun p => mkCustomerRow rows p.1 p.2)
    loadedAt := now }

/-- One row of the Product dimension.  `effective_start_date` holds the
run's `datetime.utcnow()` clock value. -/
structure ProductDimRow where
  api_product_id : ℤ
  product_name : String
  api_price : Option ℚ
  description : String
  product_category : String
  product_image_url : String
  rating_rate : Option ℚ
  rating_count : Option ℚ
  product_key : ℕ
  effective_start_date : ℕ
  effective_end_date : SDate
  is_current : Bool
  version : ℕ
  row_hash : String
deriving DecidableEq, Inhabited

structure ProductTable where
  rows : List ProductDimRow
  loadedAt : ℕ
deriving DecidableEq, Inhabited

/-- `build_dim_product` (transform.py lines 226–280): the catalog is the
master list; keys are sequential in catalog row order.  (The
`retail_categories` / `category_mapping` locals of the source are
computed but never used, so they have no counterpart here.) -/
def build_dim_product (ps : List CleanProductRow) (now : ℕ) : ProductTable :=
  { rows := ps.enum.map (fun p =>
      { api_product_id := p.2.id
        product_name := p.2.title
        api_price := p.2.price
        description := p.2.description
        product_category := p.2.category
        product_image_url := p.2.image
        rating_rate := p.2.rating_rate
        rating_count := p.2.rating_count
        product_key := p.1 + 1
        effective_start_date := now
        effective_end_date := ⟨9999, 12, 31⟩
        is_current := true
        version := 1
        row_hash := toString p.2.id ++ "_" ++ p.2.title ++ "_" ++ toString p.2.price })
    loadedAt := now }

/-- One row of the Product Category dimension. -/
structure CategoryRow where
  category_key : ℕ
  category_name : String
  category_source : String
  category_group : String
deriving DecidableEq, Inhabited

structure CategoryTable where
  rows : List CategoryRow
  loadedAt : ℕ
deriving DecidableEq, Inhabited

/-- `needle in haystack` on Python strings: contiguous substring test. -/
def containsSub (hay needle : String) : Bool :=
  go hay.data needle.data
where
  go : List Char → List Char → Bool
  | [], n => n.isEmpty
  | h :: hs, n => n.isPrefixOf (h :: hs) || go hs n

/-- The keyword classifier of `build_dim_product_category`
(transform.py lines 316–329), first-match-wins. -/
def classifyCategory (name : String) : String :=
  let nl := strLower name
  if ["electronics", "tech", "computer"].any (fun kw => containsSub nl kw) then
    "Electronics"
  else if ["clothing", "fashion", "apparel", "men's", "women's"].any
      (fun kw => containsSub nl kw) then
    "Fashion & Apparel"
  else if ["beauty", "jewelery", "jewelry", "cosmetics"].any
      (fun kw => containsSub nl kw) then
    "Beauty & Accessories"
  else "Other"

/-- `build_dim_product_category` (transform.py lines 283–339): the
category universe is `sorted(set(retail ++ api))`; `category_source` is
the case-insensitive membership test of the source.  The cleaned product
frame is accepted but not read, as in the source. -/
def build_dim_product_category (sales : List CleanSalesRow)
    (prods : List CleanProductRow) (apiCats : List String) (now : ℕ) : CategoryTable :=
  let _ := prods
  let retail := (sales.map (fun r => r.product_category)).dedup
  let api := apiCats.map (fun c => strTitle (strTrim c))
  let allCats := sortStrings ((retail ++ api).dedup)
  { rows := allCats.enum.map (fun p =>
      { category_key := p.1 + 1
        category_name := p.2
        category_source :=
          if p.2 ∈ retail ∧ strLower p.2 ∈ api.map strLower then "both"
          else if p.2 ∈ retail then "retail" else "api"
        category_group := classifyCategory p.2 })
    loadedAt := now }

/-- One row of the Fact Sales table. -/
structure FactRow where
  transaction_id : ℤ
  date_key : ℕ
  customer_key : Option ℕ
  category_key : Option ℕ
  quantity : Option ℚ
  price_per_unit : Option ℚ
  total_amount : Option ℚ
  customer_id : String
  product_category : String
  gender : String
  age : ℤ
  extracted_at : String
  source : String
  sales_key : ℕ
deriving DecidableEq, Inhabited

structure FactTable where
  rows : List FactRow
  loadedAt : ℕ
deriving DecidableEq, Inhabited

/-- `Series.map` over the dict built by
`dim.set_index(k)[v].to_dict()`: a key absent from the dict maps to NaN;
with duplicate keys the last dictionary insertion wins. -/
def dictLookup (l : List (String × ℕ)) (k : String) : Option ℕ :=
  (l.reverse.find? (fun p => p.1 == k)).map (fun p => p.2)

/-- `build_fact_sales` (transform.py lines 346–386): one output row per
cleaned sales row; `date_key` is derived from the date, the customer and
category keys are dictionary lookups that yield null on a miss;
`sales_key` is sequential in input row order.  `dim_date` is accepted
but unused, as in the source. -/
def build_fact_sales (sales : List CleanSalesRow) (dimC : CustomerTable)
    (dimCat : CategoryTable) (dimD : List DateRow) (now : ℕ) : FactTable :=
  let _ := dimD
  let custMap := dimC.rows.map (fun r => (r.customer_id, r.customer_key))
  let catMap := dimCat.rows.map (fun r => (r.category_name, r.category_key))
  { rows := sales.enum.map (fun p =>
      { transaction_id := p.2.transaction_id
        date_key := dateKey p.2.date
        customer_key := dictLookup custMap p.2.customer_id
        category_key := dictLookup catMap p.2.product_category
        quantity := p.2.quantity
        price_per_unit := p.2.price_per_unit
        total_amount := p.2.total_amount
        customer_id := p.2.customer_id
        product_category := p.2.product_category
        gender := p.2.gender
        age := p.2.age
        extracted_at := p.2.extracted_at
        source := p.2.source
        sales_key := p.1 + 1 })
    loadedAt := now }

/-- One row of the Sales Performance mart. -/
structure MartARow where
  year : ℕ
  month : ℕ
  month_name : String
  total_revenue : ℚ
  total_transactions : ℕ
  total_quantity : ℚ
  avg_order_value : Option ℚ
  unique_customers : ℕ
  revenue_prev_month : Option ℚ
  revenue_growth_pct : PVal
deriving DecidableEq, Inhabited

structure MartATable where
  rows : List MartARow
  generatedAt : ℕ
deriving DecidableEq, Inhabited

/-- `((curr - prev) / prev * 100).round(2)` under IEEE semantics. -/
def growthPct (cur prev : ℚ) : PVal :=
  pctDiv (qSub cur prev) prev

/-- One row of the `shift(1)`-based month-over-month pass: store the
previous row's revenue and the growth against it (NaN when there is no
previous row — the shifted cell is null). -/
def updGrowthRow (prev : Option ℚ) (r : MartARow) : MartARow :=
  { r with revenue_prev_month := prev
           revenue_growth_pct :=
             match prev with
             | none => .nan
             | some p => growthPct r.total_revenue p }

/-- The `shift(1)`-based month-over-month pass (transform.py lines
423–428), threading each row's revenue to its successor. -/
def addGrowth : Option ℚ → List MartARow → List MartARow
  | _, [] => []
  | prev, r :: rs => updGrowthRow prev r :: addGrowth (some r.total_revenue) rs

/-- Boolean chronological order on (year, month) used by
`sort_values(['year', 'month'])`. -/
def ymLE (a b : ℕ × ℕ × String) : Bool :=
  if a.1 < b.1 then true else if b.1 < a.1 then false else decide (a.2.1 ≤ b.2.1)

/-- One aggregated monthly row (without the shift pass). -/
def mkMonthlyRow (g : List FactRow) (k : ℕ × ℕ × String) : MartARow :=
  { year := k.1
    month := k.2.1
    month_name := k.2.2
    total_revenue := sumSkipNa (g.map (fun r => r.total_amount))
    total_transactions := (g.map (fun r => r.transaction_id)).dedup.length
    total_quantity := sumSkipNa (g.map (fun r => r.quantity))
    avg_order_value := meanSkipNa (g.map (fun r => r.total_amount))
    unique_customers := (g.map (fun r => r.customer_id)).dedup.length
    revenue_prev_month := none
    revenue_growth_pct := .nan }

/-- `build_mart_sales_performance` (transform.py lines 393–433): left
merge of the fact rows with the Date dimension on `date_key` (rows
whose key misses the dimension get NaN year/month and are then dropped
by the groupby, which ignores NaN keys); group by (year, month,
month_name); sort chronologically; add the shifted previous-month
revenue and growth percentage.  `dim_customer` is accepted but unused,
as in the source. -/
def build_mart_sales_performance (fact : FactTable) (dimD : List DateRow)
    (dimC : CustomerTable) (now : ℕ) : MartATable :=
  let _ := dimC
  let enriched : List (FactRow × DateRow) := fact.rows.filterMap (fun f =>
    (dimD.find? (fun d => d.date_key == f.date_key)).map (fun d => (f, d)))
  let keys := (enriched.map (fun x => (x.2.year, x.2.month, x.2.month_name))).dedup
  let skeys := insertionSort ymLE keys
  let base := skeys.map (fun k =>
    mkMonthlyRow ((enriched.filter
      (fun x => (x.2.year, x.2.month, x.2.month_name) == k)).map (fun x => x.1)) k)
  { rows := addGrowth none base
    generatedAt := now }

/-- One row of the Category Analysis mart. -/
structure MartBRow where
  product_category : String
  total_revenue : ℚ
  total_transactions : ℕ
  total_quantity : ℚ
  avg_price : Option ℚ
  avg_order_value : Option ℚ
  unique_customers : ℕ
  avg_customer_age : Option ℚ
  revenue_share_pct : PVal
  female_revenue_pct : PVal
  male_revenue_pct : PVal
  category_group : Option String
deriving DecidableEq, Inhabited

structure MartBTable where
  rows : List MartBRow
  generatedAt : ℕ
deriving DecidableEq, Inhabited

/-- The cell of the gender pivot (`pivot_table(..., fill_value=0)`) for
one category and one gender: the summed revenue of that (category,
gender) group, or the fill value 0 when the pair never occurs. -/
def genderRevenue (fact : List FactRow) (c g : String) : ℚ :=
  sumSkipNa ((fact.filter
    (fun r => r.product_category == c && r.gender == g)).map (fun r => r.total_amount))

/-- One aggregated category row (transform.py lines 448–494).  The
gender percentages exist only when *both* `Female` and `Male` columns
exist in the pivot — i.e. both genders occur somewhere in the fact
table; absence of the columns is rendered as NaN/null. -/
def mkCategoryRow (fact : List FactRow) (total : ℚ) (hasBoth : Bool)
    (dimCat : CategoryTable) (c : String) : MartBRow :=
  let g := fact.filter (fun r => r.product_category == c)
  let f := genderRevenue fact c "Female"
  let m := genderRevenue fact c "Male"
  { product_category := c
    total_revenue := sumSkipNa (g.map (fun r => r.total_amount))
    total_transactions := (g.map (fun r => r.transaction_id)).dedup.length
    total_quantity := sumSkipNa (g.map (fun r => r.quantity))
    avg_price := meanSkipNa (g.map (fun r => r.price_per_unit))
    avg_order_value := meanSkipNa (g.map (fun r => r.total_amount))
    unique_customers := (g.map (fun r => r.customer_id)).dedup.length
    avg_customer_age := meanInt (g.map (fun r => r.age))
    revenue_share_pct := pctDiv (sumSkipNa (g.map (fun r => r.total_amount))) total
    female_revenue_pct := if hasBoth then pctDiv f (qAdd f m) else .nan
    male_revenue_pct := if hasBoth then sub100 (pctDiv f (qAdd f m)) else .nan
    category_group :=
      (dimCat.rows.find? (fun r => r.category_name == c)).map (fun r => r.category_group) }

/-- `build_mart_category_analysis` (transform.py lines 436–507): group
the fact rows by category (groupby sorts the keys); compute the revenue
share against the all-category total; compute the gender split from the
(category × gender) pivot filled with 0; left-join `category_group`
from the Category dimension.  `dim_customer` is accepted but unused, as
in the source. -/
def build_mart_category_analysis (fact : FactTable) (dimCat : CategoryTable)
    (dimC : CustomerTable) (now : ℕ) : MartBTable :=
  let _ := dimC
  let cats := sortStrings ((fact.rows.map (fun r => r.product_category)).dedup)
  let total := sumSkipNa (fact.rows.map (fun r => r.total_amount))
  let genders := fact.rows.map (fun r => r.gender)
  let hasBoth := decide ("Female" ∈ genders) && decide ("Male" ∈ genders)
  { rows := cats.map (fun c => mkCategoryRow fact.rows total hasBoth dimCat c)
    generatedAt := now }

/-- The input mapping of `transform_all` (§6 Input). -/
structure ExtractedData where
  retail_sales : SalesFrame
  api_products : ProductFrame
  api_categories : List String
deriving DecidableEq, Inhabited

/-- The output mapping of `transform_all` (§6 Output). -/
structure TransformResult where
  stg_retail_sales : List CleanSalesRow
  stg_api_products : List CleanProductRow
  dim_date : List DateRow
  dim_customer : CustomerTable
  dim_product : ProductTable
  dim_product_category : CategoryTable
  fact_sales : FactTable
  mart_sales_performance : MartATable
  mart_category_analysis : MartBTable
deriving DecidableEq, Inhabited

/-- The fallible prefix of `transform_all`: clean both sources and
build the Date dimension, propagating the first failure. -/
def transformStages (x : ExtractedData) :
    Except DataError (List CleanSalesRow × List CleanProductRow × List DateRow) :=
  match clean_retail_sales x.retail_sales with
  | .error e => .error e
  | .ok cs =>
    match clean_api_products x.api_products with
    | .error e => .error e
    | .ok cp =>
      match build_dim_date cs with
      | .error e => .error e
      | .ok dd => .ok (cs, cp, dd)

/-- The remaining (infallible) builders of `transform_all`, assembled
into the output mapping in source order. -/
def assembleResult (apiCats : List String) (now : ℕ)
    (t : List CleanSalesRow × List CleanProductRow × List DateRow) : TransformResult :=
  let cs := t.1
  let cp := t.2.1
  let dd := t.2.2
  let dimC := build_dim_customer cs now
  let dimP := build_dim_product cp now
  let dimCat := build_dim_product_category cs cp apiCats now
  let fact := build_fact_sales cs dimC dimCat dd now
  { stg_retail_sales := cs
    stg_api_products := cp
    dim_date := dd
    dim_customer := dimC
    dim_product := dimP
    dim_product_category := dimCat
    fact_sales := fact
    mart_sales_performance := build_mart_sales_performance fact dd dimC now
    mart_category_analysis := build_mart_category_analysis fact dimCat dimC now }

/-- `transform_all` (transform.py lines 514–572): clean both sources,
build the four dimensions, the fact table and the two marts, in source
order; any stage failure aborts the whole call.  The wall clock consumed
by the builders' `datetime.utcnow()` calls is the explicit `now`
argument. -/
def transform_all (x : ExtractedData) (now : ℕ) : Except DataError TransformResult :=
  (transformStages x).map (assembleResult x.api_categories now)

/-! ## Shared demonstration inputs -/

/-- The normalised raw sales column set produced by Extract. -/
def demoSalesCols : List String :=
  ["transaction_id", "date", "customer_id", "gender", "age", "product_category",
   "quantity", "price_per_unit", "total_amount", "_extracted_at", "_source"]

/-- A well-formed raw sales row. -/
def demoSalesRow : RawSalesRow :=
  { transaction_id := 1, date := some ⟨2023, 5, 15⟩, customer_id := "C1",
    gender := "Female", age := 30, product_category := "Beauty",
    quantity := some 2, price_per_unit := some 25, total_amount := some 50,
    extracted_at := "2024-01-01", source := "kaggle_retail_sales" }

/-- A well-formed cleaned sales row. -/
def demoCleanRow : CleanSalesRow :=
  { transaction_id := 1, date := ⟨2023, 5, 15⟩, customer_id := "C1",
    gender := "Female", age := 30, product_category := "Beauty",
    quantity := some 2, price_per_unit := some 25, total_amount := some 50,
    extracted_at := "2024-01-01", source := "kaggle_retail_sales",
    row_hash := "h" }

/-! ## Claims -/

/-- Auxiliary: every date generated by `datesOfYear` has a month in 1..12. -/
theorem month_mem_datesOfYear {y : ℕ} {d : SDate} (h : d ∈ datesOfYear y) :
    1 ≤ d.month ∧ d.month ≤ 12 := by
  simp only [datesOfYear, List.mem_flatMap, List.mem_range, List.mem_map] at h
  obtain ⟨mi, hmi, di, hdi, rfl⟩ := h
  simp only
  omega

/-- **C8.** In every row of the Date dimension, `fiscal_year` is the
calendar year plus one from October on, and `fiscal_quarter` maps
Oct–Dec to 1, Jan–Mar to 2, Apr–Jun to 3 and Jul–Sep to 4. -/
theorem C8_fiscal_calendar (rows : List CleanSalesRow) (dd : List DateRow)
    (h : build_dim_date rows = .ok dd) (r : DateRow) (hr : r ∈ dd) :
    (r.fiscal_year = if 10 ≤ r.month then r.year + 1 else r.year)
    ∧ (10 ≤ r.month → r.fiscal_quarter = 1)
    ∧ (r.month ≤ 3 → r.fiscal_quarter = 2)
    ∧ (4 ≤ r.month ∧ r.month ≤ 6 → r.fiscal_quarter = 3)
    ∧ (7 ≤ r.month ∧ r.month ≤ 9 → r.fiscal_quarter = 4) := by
  cases rows with
  | nil => simp [build_dim_date] at h
  | cons a rs =>
    simp only [build_dim_date, Except.ok.injEq] at h
    subst h
    simp only [List.mem_map, List.mem_flatMap, List.mem_range] at hr
    obtain ⟨d, ⟨k, hk, hd⟩, rfl⟩ := hr
    obtain ⟨h1, h12⟩ := month_mem_datesOfYear hd
    refine ⟨rfl, ?_, ?_, ?_, ?_⟩ <;>
      · simp only [mkDateRow] at *
        set m := d.month with hm
        intro hcond
        interval_cases m <;> first | rfl | omega

/-- The Date dimension built from the single demonstration sale. -/
def demoDimDate : List DateRow :=
  (build_dim_date [demoCleanRow]).toOption.getD []

/-- Witness for C8 at a concrete input: the head row of the Date
dimension built from one sale dated 2023-05-15 (= 2023-01-01). -/
theorem C8_fiscal_calendar_witness :
    (demoDimDate.headI.fiscal_year =
      if 10 ≤ demoDimDate.headI.month then demoDimDate.headI.year + 1
      else demoDimDate.headI.year)
    ∧ (10 ≤ demoDimDate.headI.month → demoDimDate.headI.fiscal_quarter = 1)
    ∧ (demoDimDate.headI.month ≤ 3 → demoDimDate.headI.fiscal_quarter = 2)
    ∧ (4 ≤ demoDimDate.headI.month ∧ demoDimDate.headI.month ≤ 6 →
        demoDimDate.headI.fiscal_quarter = 3)
    ∧ (7 ≤ demoDimDate.headI.month ∧ demoDimDate.headI.month ≤ 9 →
        demoDimDate.headI.fiscal_quarter = 4) :=
  C8_fiscal_calendar [demoCleanRow] demoDimDate rfl demoDimDate.headI (by decide)

/-- **C4.** Structural invalidity is fatal: `clean_retail_sales` fails
with a `DataError` whenever one of its required columns is absent from
the input frame; `build_dim_date` fails with a `DataError` exactly on
empty input and succeeds on any non-empty input (no other error path). -/
theorem C4_structural_data_errors :
    (∀ f : SalesFrame, (∃ c ∈ requiredSalesCols, c ∉ f.cols.map normalizeCol) →
      ∃ e, clean_retail_sales f = .error e)
    ∧ build_dim_date [] = .error (.emptyInput "retail_sales")
    ∧ (∀ rows : List CleanSalesRow, rows ≠ [] → ∃ dd, build_dim_date rows = .ok dd) := by
  refine ⟨?_, rfl, ?_⟩
  · intro f hmiss
    have hsome :
        (requiredSalesCols.find? (fun c => !((f.cols.map normalizeCol).contains c))).isSome := by
      rw [List.find?_isSome]
      obtain ⟨c, hc, hn⟩ := hmiss
      exact ⟨c, hc, by simpa using hn⟩
    obtain ⟨c', hc'⟩ := Option.isSome_iff_exists.mp hsome
    refine ⟨.missingColumn c', ?_⟩
    simp only [clean_retail_sales]
    rw [hc']
  · intro rows hne
    cases rows with
    | nil => exact absurd rfl hne
    | cons a rs => exact ⟨_, rfl⟩

/-- Witness for C4 at concrete inputs: a frame with no columns at all is
rejected, and the one-row cleaned input builds a Date dimension. -/
theorem C4_structural_data_errors_witness :
    (∃ e, clean_retail_sales ⟨[], [demoSalesRow]⟩ = .error e)
    ∧ (∃ dd, build_dim_date [demoCleanRow] = .ok dd) :=
  ⟨C4_structural_data_errors.1 ⟨[], [demoSalesRow]⟩ ⟨"date", by decide, by decide⟩,
   C4_structural_data_errors.2.2 [demoCleanRow] (by decide)⟩

/-- Auxiliary: a successful `clean_retail_sales` returns exactly the
row-pipeline output. -/
theorem clean_ok_rows {f : SalesFrame} {out : List CleanSalesRow}
    (h : clean_retail_sales f = .ok out) : out = cleanSalesRows f.rows := by
  simp only [clean_retail_sales] at h
  cases hf : requiredSalesCols.find? (fun c => !((f.cols.map normalizeCol).contains c)) with
  | some c => rw [hf] at h; cases h
  | none =>
    rw [hf] at h
    split_ifs at h
    have h2 : Except.ok (cleanSalesRows f.rows) = Except.ok out := h
    exact ((Except.ok.injEq _ _).mp h2).symm

/-- Auxiliary: membership in the cleaned output factors through the
recompute stage. -/
theorem mem_cleanSalesRows {rows : List RawSalesRow} {r : CleanSalesRow}
    (h : r ∈ cleanSalesRows rows) :
    ∃ rd ∈ recomputeTotals (filterPosQ (parseDates rows)),
      r = finalizeRow (clipAgeRow (styleRow rd)) := by
  simp only [cleanSalesRows, List.mem_map] at h
  obtain ⟨rd2, ⟨rd1, ⟨rd0, h0, rfl⟩, rfl⟩, rfl⟩ := h
  exact ⟨rd0, h0, rfl⟩

/-- Auxiliary: after the recompute stage, every row's stored total is
exactly the product cell `quantity * price_per_unit` (with pandas null
propagation). -/
theorem recompute_total_eq {l : List (RawSalesRow × SDate)} {rd : RawSalesRow × SDate}
    (h : rd ∈ recomputeTotals l) :
    rd.1.total_amount = pmul rd.1.quantity rd.1.price_per_unit := by
  unfold recomputeTotals at h
  split_ifs at h with hd
  · simp only [List.mem_map] at h
    obtain ⟨rd0, _, rfl⟩ := h
    rfl
  · have h0 : l.countP
        (fun rd => !pEqB rd.1.total_amount (pmul rd.1.quantity rd.1.price_per_unit)) = 0 := by
      omega
    have heq := List.countP_eq_zero.mp h0 rd h
    simp only [Bool.not_eq_eq_eq_not, Bool.not_true] at heq
    have heq' : pEqB rd.1.total_amount (pmul rd.1.quantity rd.1.price_per_unit) = true := by
      revert heq
      cases pEqB rd.1.total_amount (pmul rd.1.quantity rd.1.price_per_unit) <;> simp
    revert heq'
    unfold pEqB
    cases rd.1.total_amount with
    | none => cases pmul rd.1.quantity rd.1.price_per_unit <;> simp
    | some t =>
      cases hp : pmul rd.1.quantity rd.1.price_per_unit with
      | none => simp
      | some c => simp

/-- Auxiliary: the recompute stage does not change the quantity cell of
a surviving row. -/
theorem recompute_quantity {l : List (RawSalesRow × SDate)} {rd : RawSalesRow × SDate}
    (h : rd ∈ recomputeTotals l) : ∃ rd0 ∈ l, rd.1.quantity = rd0.1.quantity := by
  unfold recomputeTotals at h
  split_ifs at h
  · simp only [List.mem_map] at h
    obtain ⟨rd0, h0, rfl⟩ := h
    exact ⟨rd0, h0, rfl⟩
  · exact ⟨rd, h, rfl⟩

/-- **C1.** In every row surviving `clean_retail_sales`, the stored
`total_amount` cell is exactly the product cell
`quantity * price_per_unit`: whenever any source total disagrees under
pandas comparison, the whole column is overwritten with the recomputed
product, and when none disagrees every stored total already equals the
product.  (A null `price_per_unit` makes both sides the null cell.) -/
theorem C1_total_recomputed (f : SalesFrame) (out : List CleanSalesRow)
    (h : clean_retail_sales f = .ok out) (r : CleanSalesRow) (hr : r ∈ out) :
    r.total_amount = pmul r.quantity r.price_per_unit := by
  obtain rfl := clean_ok_rows h
  obtain ⟨rd, hrd, rfl⟩ := mem_cleanSalesRows hr
  show rd.1.total_amount = pmul rd.1.quantity rd.1.price_per_unit
  exact recompute_total_eq hrd

/-- Auxiliary: the recompute stage keeps every row. -/
theorem recomputeTotals_length (l : List (RawSalesRow × SDate)) :
    (recomputeTotals l).length = l.length := by
  unfold recomputeTotals
  split_ifs
  · rw [List.length_map]
  · rfl

/-- Auxiliary: the recompute stage changes no field other than the
total, position by position. -/
theorem recomputeTotals_fields (l : List (RawSalesRow × SDate)) (i : ℕ) :
    ((recomputeTotals l)[i]?).map
        (fun rd => (rd.1.transaction_id, rd.1.customer_id, rd.1.age))
      = (l[i]?).map (fun rd => (rd.1.transaction_id, rd.1.customer_id, rd.1.age)) := by
  unfold recomputeTotals
  split_ifs
  · rw [List.getElem?_map]
    cases l[i]? <;> rfl
  · rfl

/-- **C9.** `clean_retail_sales` removes exactly the rows with an
unparseable date or a non-positive/non-numeric quantity, and no other:
each remaining input row — *whatever its age* — yields exactly one
output row at the same position (same transaction_id and customer_id),
whose age is the input age pulled to the nearest bound of [18, 100]
(18 if below, 100 if above, unchanged when in range).  Consequently
every returned row satisfies `quantity > 0` (non-null) and
`18 ≤ age ≤ 100`. -/
theorem C9_quantity_age_clamped (f : SalesFrame) (out : List CleanSalesRow)
    (h : clean_retail_sales f = .ok out) :
    out.length = (filterPosQ (parseDates f.rows)).length
    ∧ (∀ (i : ℕ) (rd : RawSalesRow × SDate) (cr : CleanSalesRow),
        (filterPosQ (parseDates f.rows))[i]? = some rd → out[i]? = some cr →
        cr.transaction_id = rd.1.transaction_id
        ∧ cr.customer_id = rd.1.customer_id
        ∧ (rd.1.age < 18 → cr.age = 18)
        ∧ (100 < rd.1.age → cr.age = 100)
        ∧ (18 ≤ rd.1.age → rd.1.age ≤ 100 → cr.age = rd.1.age))
    ∧ (∀ r ∈ out, (∃ q, r.quantity = some q ∧ 0 < q) ∧ 18 ≤ r.age ∧ r.age ≤ 100) := by
  obtain rfl := clean_ok_rows h
  refine ⟨?_, ?_, ?_⟩
  · show ((((recomputeTotals _).map _).map _).map _).length = _
    rw [List.length_map, List.length_map, List.length_map, recomputeTotals_length]
  · intro i rd cr hk hout
    simp only [cleanSalesRows, List.getElem?_map] at hout
    have hfields := recomputeTotals_fields (filterPosQ (parseDates f.rows)) i
    rw [hk] at hfields
    cases hR : (recomputeTotals (filterPosQ (parseDates f.rows)))[i]? with
    | none => rw [hR] at hout; simp at hout
    | some rd' =>
      rw [hR] at hout hfields
      simp only [Option.map_some'] at hout hfields
      obtain rfl := Option.some.inj hout
      have h3 := Option.some.inj hfields
      rw [Prod.mk.injEq, Prod.mk.injEq] at h3
      obtain ⟨htid, hcid, hage⟩ := h3
      refine ⟨htid, hcid, ?_, ?_, ?_⟩
      · intro hlt
        show min 100 (max 18 rd'.1.age) = 18
        rw [hage]; omega
      · intro hgt
        show min 100 (max 18 rd'.1.age) = 100
        rw [hage]; omega
      · intro hlo hhi
        show min 100 (max 18 rd'.1.age) = rd.1.age
        rw [hage]; omega
  · intro r hr
    obtain ⟨rd, hrd, rfl⟩ := mem_cleanSalesRows hr
    constructor
    · obtain ⟨rd0, h0, hq⟩ := recompute_quantity hrd
      simp only [filterPosQ, List.mem_filter] at h0
      have hpos := h0.2
      show ∃ q, rd.1.quantity = some q ∧ 0 < q
      rw [hq]
      revert hpos
      cases hq0 : rd0.1.quantity with
      | none => simp
      | some q => exact fun hpos => ⟨q, rfl, by simpa using hpos⟩
    · show 18 ≤ min 100 (max 18 rd.1.age) ∧ min 100 (max 18 rd.1.age) ≤ 100
      omega

/-- The demonstration raw sales frame and its cleaned output. -/
def demoSalesFrame : SalesFrame :=
  ⟨demoSalesCols, [demoSalesRow]⟩

def demoCleanOut : List CleanSalesRow :=
  (clean_retail_sales demoSalesFrame).toOption.getD []

/-- Witness for C1 at a concrete input. -/
theorem C1_total_recomputed_witness :
    demoCleanOut.headI.total_amount =
      pmul demoCleanOut.headI.quantity demoCleanOut.headI.price_per_unit :=
  C1_total_recomputed demoSalesFrame demoCleanOut rfl demoCleanOut.headI (by decide)

/-- A raw sales row whose age 150 lies above the clip range. -/
def demoAgeRow : RawSalesRow :=
  { demoSalesRow with transaction_id := 9, customer_id := "C9", age := 150 }

def demoAgeFrame : SalesFrame :=
  ⟨demoSalesCols, [demoAgeRow]⟩

def demoAgeOut : List CleanSalesRow :=
  (clean_retail_sales demoAgeFrame).toOption.getD []

def demoAgeKept0 : RawSalesRow × SDate :=
  ((filterPosQ (parseDates demoAgeFrame.rows))[0]?).getD default

def demoAgeOut0 : CleanSalesRow :=
  (demoAgeOut[0]?).getD default

/-- Witness for C9 at a concrete input: the single input row has age
150, it is retained (same transaction_id and customer_id at the same
position), and its output age is the nearest bound 100. -/
theorem C9_quantity_age_clamped_witness :
    demoAgeKept0.1.age = 150
    ∧ demoAgeOut0.age = 100
    ∧ demoAgeOut.length = (filterPosQ (parseDates demoAgeFrame.rows)).length
    ∧ demoAgeOut0.transaction_id = demoAgeKept0.1.transaction_id
    ∧ demoAgeOut0.customer_id = demoAgeKept0.1.customer_id
    ∧ ((∃ q, demoAgeOut0.quantity = some q ∧ 0 < q)
        ∧ 18 ≤ demoAgeOut0.age ∧ demoAgeOut0.age ≤ 100) := by
  have h := C9_quantity_age_clamped demoAgeFrame demoAgeOut rfl
  have h2 := h.2.1 0 demoAgeKept0 demoAgeOut0 (by decide) (by decide)
  have hmem : demoAgeOut0 ∈ demoAgeOut := by decide
  exact ⟨by decide, h2.2.2.2.1 (by decide), h.1, h2.1, h2.2.1,
    h.2.2 demoAgeOut0 hmem⟩

/-- Auxiliary: a dictionary lookup over pairs none of whose keys match
yields null. -/
theorem dictLookup_eq_none {l : List (String × ℕ)} {k : String}
    (h : ∀ a ∈ l, a.1 ≠ k) : dictLookup l k = none := by
  unfold dictLookup
  rw [Option.map_eq_none', List.find?_eq_none]
  intro x hx
  simpa using h x (List.mem_reverse.mp hx)

/-- **C2.** `build_fact_sales` emits exactly one fact row per cleaned
sales row (it is total — no row is dropped and no error raised), and a
sale whose customer or category has no row in this run's dimension gets
a null `customer_key` / `category_key` rather than being removed. -/
theorem C2_fact_null_keys (sales : List CleanSalesRow) (dimC : CustomerTable)
    (dimCat : CategoryTable) (dimD : List DateRow) (now : ℕ) :
    (build_fact_sales sales dimC dimCat dimD now).rows.length = sales.length
    ∧ (∀ i s frow, sales.get? i = some s →
        (build_fact_sales sales dimC dimCat dimD now).rows.get? i = some frow →
        frow.transaction_id = s.transaction_id
        ∧ ((∀ c ∈ dimC.rows, c.customer_id ≠ s.customer_id) → frow.customer_key = none)
        ∧ ((∀ c ∈ dimCat.rows, c.category_name ≠ s.product_category) →
            frow.category_key = none)) := by
  constructor
  · simp [build_fact_sales]
  · intro i s frow hs hf
    simp only [build_fact_sales, List.get?_eq_getElem?, List.getElem?_map,
      List.getElem?_enum] at hf
    rw [List.get?_eq_getElem?] at hs
    rw [hs] at hf
    simp only [Option.map_some'] at hf
    obtain rfl := (Option.some.injEq _ _).mp hf
    refine ⟨rfl, ?_, ?_⟩
    · intro hnone
      show dictLookup (dimC.rows.map (fun r => (r.customer_id, r.customer_key)))
        s.customer_id = none
      apply dictLookup_eq_none
      intro a ha
      simp only [List.mem_map] at ha
      obtain ⟨c, hc, rfl⟩ := ha
      exact hnone c hc
    · intro hnone
      show dictLookup (dimCat.rows.map (fun r => (r.category_name, r.category_key)))
        s.product_category = none
      apply dictLookup_eq_none
      intro a ha
      simp only [List.mem_map] at ha
      obtain ⟨c, hc, rfl⟩ := ha
      exact hnone c hc

/-- A second cleaned sales row for a different customer. -/
def demoCleanRow2 : CleanSalesRow :=
  { demoCleanRow with
      transaction_id := 2, customer_id := "C2",
      product_category := "Electronics", date := ⟨2023, 6, 1⟩ }

/-- A fact table joining two sales against a one-customer dimension and
an empty category dimension, and its second row. -/
def demoFactTable : FactTable :=
  build_fact_sales [demoCleanRow, demoCleanRow2]
    (build_dim_customer [demoCleanRow] 0) ⟨[], 0⟩ [] 0

def demoFactRow1 : FactRow :=
  (demoFactTable.rows.get? 1).getD default

/-- Witness for C2 at a concrete input: two sales, a one-customer
dimension and an empty category dimension — the unmatched second sale
keeps its row with null keys. -/
theorem C2_fact_null_keys_witness :
    demoFactTable.rows.length = 2
    ∧ demoFactRow1.transaction_id = 2
    ∧ demoFactRow1.customer_key = none
    ∧ demoFactRow1.category_key = none := by
  have h := C2_fact_null_keys [demoCleanRow, demoCleanRow2]
    (build_dim_customer [demoCleanRow] 0) ⟨[], 0⟩ [] 0
  have h2 := h.2 1 demoCleanRow2 demoFactRow1 rfl rfl
  exact ⟨h.1, h2.1, h2.2.1 (by decide), h2.2.2 (by decide)⟩

/-! ### Order and sorting lemmas for the insertion sort -/

theorem perm_insertLe {α : Type} (le : α → α → Bool) (a : α) (l : List α) :
    (insertLe le a l).Perm (a :: l) := by
  induction l with
  | nil => exact List.Perm.refl _
  | cons b t ih =>
    by_cases h : le a b
    · rw [insertLe, if_pos h]
    · rw [insertLe, if_neg h]
      exact (ih.cons b).trans (List.Perm.swap a b t)

theorem perm_insertionSort {α : Type} (le : α → α → Bool) (l : List α) :
    (insertionSort le l).Perm l := by
  induction l with
  | nil => exact List.Perm.refl _
  | cons a t ih =>
    exact (perm_insertLe le a (insertionSort le t)).trans (ih.cons a)

theorem mem_insertionSort {α : Type} (le : α → α → Bool) {a : α} {l : List α} :
    a ∈ insertionSort le l ↔ a ∈ l :=
  (perm_insertionSort le l).mem_iff

theorem sorted_insertLe {α : Type} {le : α → α → Bool}
    (htrans : ∀ x y z, le x y = true → le y z = true → le x z = true)
    (htot : ∀ x y, le x y = true ∨ le y x = true) (a : α) (l : List α)
    (hl : l.Pairwise (fun x y => le x y = true)) :
    (insertLe le a l).Pairwise (fun x y => le x y = true) := by
  induction l with
  | nil => simp [insertLe]
  | cons b t ih =>
    rcases List.pairwise_cons.mp hl with ⟨hb, ht⟩
    by_cases h : le a b
    · rw [insertLe, if_pos h]
      refine List.Pairwise.cons ?_ hl
      intro x hx
      rcases List.mem_cons.mp hx with rfl | hx2
      · exact h
      · exact htrans a b x h (hb x hx2)
    · rw [insertLe, if_neg h]
      refine List.Pairwise.cons ?_ (ih ht)
      intro x hx
      rcases List.mem_cons.mp ((perm_insertLe le a t).mem_iff.mp hx) with hxa | hx2
      · rw [hxa]
        rcases htot a b with hab | hba
        · exact absurd hab h
        · exact hba
      · exact hb x hx2

theorem sorted_insertionSort {α : Type} {le : α → α → Bool}
    (htrans : ∀ x y z, le x y = true → le y z = true → le x z = true)
    (htot : ∀ x y, le x y = true ∨ le y x = true) (l : List α) :
    (insertionSort le l).Pairwise (fun x y => le x y = true) := by
  induction l with
  | nil => simp [insertionSort]
  | cons a t ih => exact sorted_insertLe htrans htot a _ ih

theorem strLeChars_total (s t : List Char) :
    strLeChars s t = true ∨ strLeChars t s = true := by
  induction s generalizing t with
  | nil => left; rfl
  | cons a as ih =>
    cases t with
    | nil => right; rfl
    | cons b bs =>
      rcases lt_trichotomy a b with h | h | h
      · left; simp [strLeChars, h]
      · subst h
        rcases ih bs with hh | hh
        · left; simp [strLeChars, lt_irrefl, hh]
        · right; simp [strLeChars, lt_irrefl, hh]
      · right; simp [strLeChars, h]

theorem strLeChars_trans (s t u : List Char) (h1 : strLeChars s t = true)
    (h2 : strLeChars t u = true) : strLeChars s u = true := by
  induction s generalizing t u with
  | nil => rfl
  | cons a as ih =>
    cases t with
    | nil => simp [strLeChars] at h1
    | cons b bs =>
      cases u with
      | nil => simp [strLeChars] at h2
      | cons c cs =>
        rcases lt_trichotomy a b with hab | hab | hab
        · rcases lt_trichotomy b c with hbc | hbc | hbc
          · rw [strLeChars, if_pos (lt_trans hab hbc)]
          · rw [strLeChars, if_pos (hbc ▸ hab)]
          · rw [strLeChars, if_neg (lt_asymm hbc), if_pos hbc] at h2
            cases h2
        · subst hab
          rw [strLeChars, if_neg (lt_irrefl a), if_neg (lt_irrefl a)] at h1
          rcases lt_trichotomy a c with hac | hac | hac
          · rw [strLeChars, if_pos hac]
          · subst hac
            rw [strLeChars, if_neg (lt_irrefl a), if_neg (lt_irrefl a)] at h2 ⊢
            exact ih bs cs h1 h2
          · rw [strLeChars, if_neg (lt_asymm hac), if_pos hac] at h2
            cases h2
        · rw [strLeChars, if_neg (lt_asymm hab), if_pos hab] at h1
          cases h1

theorem strLeChars_antisymm (s t : List Char) (h1 : strLeChars s t = true)
    (h2 : strLeChars t s = true) : s = t := by
  induction s generalizing t with
  | nil =>
    cases t with
    | nil => rfl
    | cons b bs => simp [strLeChars] at h2
  | cons a as ih =>
    cases t with
    | nil => simp [strLeChars] at h1
    | cons b bs =>
      rcases lt_trichotomy a b with hab | hab | hab
      · rw [strLeChars, if_neg (lt_asymm hab), if_pos hab] at h2
        cases h2
      · subst hab
        rw [strLeChars, if_neg (lt_irrefl a), if_neg (lt_irrefl a)] at h1
        rw [strLeChars, if_neg (lt_irrefl a), if_neg (lt_irrefl a)] at h2
        rw [ih bs h1 h2]
      · rw [strLeChars, if_neg (lt_asymm hab), if_pos hab] at h1
        cases h1

theorem strLeB_total (s t : String) : strLeB s t = true ∨ strLeB t s = true :=
  strLeChars_total s.data t.data

theorem strLeB_trans (s t u : String) (h1 : strLeB s t = true)
    (h2 : strLeB t u = true) : strLeB s u = true :=
  strLeChars_trans s.data t.data u.data h1 h2

theorem strLeB_antisymm (s t : String) (h1 : strLeB s t = true)
    (h2 : strLeB t s = true) : s = t := by
  cases s with
  | mk sd =>
    cases t with
    | mk td => rw [strLeChars_antisymm sd td h1 h2]

theorem sortStrings_sorted (l : List String) :
    (sortStrings l).Pairwise (fun x y => strLeB x y = true) :=
  sorted_insertionSort strLeB_trans strLeB_total l

theorem sortStrings_perm (l : List String) : (sortStrings l).Perm l :=
  perm_insertionSort strLeB l

/-- Two permuted inputs have the same sorted deduplication. -/
theorem sortStrings_dedup_eq {l1 l2 : List String} (h : l1.Perm l2) :
    sortStrings l1.dedup = sortStrings l2.dedup := by
  haveI : IsAntisymm String (fun x y => strLeB x y = true) := ⟨strLeB_antisymm⟩
  exact List.eq_of_perm_of_sorted
    ((sortStrings_perm l1.dedup).trans (h.dedup.trans (sortStrings_perm l2.dedup).symm))
    (sortStrings_sorted l1.dedup) (sortStrings_sorted l2.dedup)

theorem mem_sortStrings {a : String} {l : List String} : a ∈ sortStrings l ↔ a ∈ l :=
  (sortStrings_perm l).mem_iff

/-- Auxiliary: the head of a filtered list is the element at the first
index satisfying the predicate. -/
theorem filter_headI_first {α : Type} [Inhabited α] (p : α → Bool) (l : List α)
    (h : ∃ x ∈ l, p x = true) :
    ∃ i, ∃ hi : i < l.length, p (l.get ⟨i, hi⟩) = true
      ∧ (∀ j (hj : j < l.length), j < i → p (l.get ⟨j, hj⟩) = false)
      ∧ (l.filter p).headI = l.get ⟨i, hi⟩ := by
  induction l with
  | nil => simp at h
  | cons a t ih =>
    by_cases hpa : p a = true
    · refine ⟨0, by simp, hpa, ?_, ?_⟩
      · intro j hj hj0; omega
      · simp [List.filter_cons, hpa]
    · have hpa' : p a = false := by simpa using hpa
      have h' : ∃ x ∈ t, p x = true := by
        obtain ⟨x, hx, hpx⟩ := h
        rcases List.mem_cons.mp hx with rfl | hx2
        · exact absurd hpx hpa
        · exact ⟨x, hx2, hpx⟩
      obtain ⟨i, hi, hp, hmin, hh⟩ := ih h'
      refine ⟨i + 1, Nat.succ_lt_succ hi, hp, ?_, ?_⟩
      · intro j hj hji
        cases j with
        | zero => exact hpa'
        | succ j => exact hmin j (by omega) (by omega)
      · rw [List.filter_cons, if_neg (by simp [hpa'])]
        exact hh

/-- Auxiliary: the customer ids of the Customer dimension are exactly
the sorted distinct ids of the input. -/
theorem dimCustomer_ids (rows : List CleanSalesRow) (now : ℕ) :
    (build_dim_customer rows now).rows.map (fun r => r.customer_id) = sortedUniqueIds rows := by
  show List.map _ (List.map _ (sortedUniqueIds rows).enum) = _
  rw [List.map_map]
  show List.map Prod.snd (sortedUniqueIds rows).enum = _
  exact List.enum_map_snd _

/-- **C3.** The Customer dimension has exactly one row per distinct
customer_id of the input (no more, no less); every row carries
`is_current = true` and `version = 1`; and its gender/age are the ones
of the *first* input row mentioning that customer. -/
theorem C3_customer_scd_rows (rows : List CleanSalesRow) (now : ℕ) :
    ((build_dim_customer rows now).rows.map (fun r => r.customer_id)).Nodup
    ∧ (∀ id, id ∈ (build_dim_customer rows now).rows.map (fun r => r.customer_id) ↔
        id ∈ rows.map (fun r => r.customer_id))
    ∧ ∀ r ∈ (build_dim_customer rows now).rows,
        r.is_current = true ∧ r.version = 1
        ∧ ∃ i, ∃ hi : i < rows.length,
            (rows.get ⟨i, hi⟩).customer_id = r.customer_id
            ∧ (∀ j (hj : j < rows.length), j < i →
                (rows.get ⟨j, hj⟩).customer_id ≠ r.customer_id)
            ∧ r.gender = (rows.get ⟨i, hi⟩).gender
            ∧ r.age = (rows.get ⟨i, hi⟩).age := by
  refine ⟨?_, ?_, ?_⟩
  · rw [dimCustomer_ids]
    exact ((sortStrings_perm _).nodup_iff).mpr (List.nodup_dedup _)
  · intro id
    rw [dimCustomer_ids, sortedUniqueIds, mem_sortStrings, List.mem_dedup]
  · intro r hr
    simp only [build_dim_customer, List.mem_map] at hr
    obtain ⟨⟨idx, id⟩, hmem, rfl⟩ := hr
    have hid : id ∈ sortedUniqueIds rows := by
      rw [← List.enum_map_snd (sortedUniqueIds rows)]
      exact List.mem_map_of_mem Prod.snd hmem
    rw [sortedUniqueIds, mem_sortStrings, List.mem_dedup] at hid
    obtain ⟨x, hx, hxid⟩ := List.mem_map.mp hid
    obtain ⟨i, hi, hp, hmin, hh⟩ := filter_headI_first
      (fun rr => rr.customer_id == id) rows ⟨x, hx, by simp [hxid]⟩
    refine ⟨rfl, rfl, i, hi, ?_, ?_, ?_, ?_⟩
    · exact eq_of_beq hp
    · intro j hj hji hcontra
      have := hmin j hj hji
      rw [show ((mkCustomerRow rows idx id).customer_id) = id from rfl] at hcontra
      rw [hcontra] at this
      simp at this
    · show (customerGroup rows id).headI.gender = _
      exact congrArg (fun z => z.gender) hh
    · show (customerGroup rows id).headI.age = _
      exact congrArg (fun z => z.age) hh

/-- A cleaned row for the same customer as `demoCleanRow` but with
different attributes, observed later. -/
def demoCleanRow3 : CleanSalesRow :=
  { demoCleanRow with
      transaction_id := 3, gender := "Other", age := 77, date := ⟨2023, 7, 2⟩ }

/-- Witness for C3 at a concrete input: two rows for one customer with
conflicting attributes — the dimension row keeps the first ones. -/
theorem C3_customer_scd_rows_witness :
    (((build_dim_customer [demoCleanRow, demoCleanRow3] 0).rows.map
        (fun r => r.customer_id)).Nodup)
    ∧ ("C1" ∈ (build_dim_customer [demoCleanRow, demoCleanRow3] 0).rows.map
        (fun r => r.customer_id) ↔
        "C1" ∈ [demoCleanRow, demoCleanRow3].map (fun r => r.customer_id))
    ∧ ((build_dim_customer [demoCleanRow, demoCleanRow3] 0).rows.headI.is_current = true
        ∧ (build_dim_customer [demoCleanRow, demoCleanRow3] 0).rows.headI.version = 1
        ∧ ∃ i, ∃ hi : i < ([demoCleanRow, demoCleanRow3] : List CleanSalesRow).length,
            (([demoCleanRow, demoCleanRow3] : List CleanSalesRow).get ⟨i, hi⟩).customer_id =
              (build_dim_customer [demoCleanRow, demoCleanRow3] 0).rows.headI.customer_id
            ∧ (∀ j (hj : j < ([demoCleanRow, demoCleanRow3] : List CleanSalesRow).length),
                j < i →
                (([demoCleanRow, demoCleanRow3] : List CleanSalesRow).get ⟨j, hj⟩).customer_id ≠
                  (build_dim_customer [demoCleanRow, demoCleanRow3] 0).rows.headI.customer_id)
            ∧ (build_dim_customer [demoCleanRow, demoCleanRow3] 0).rows.headI.gender =
                (([demoCleanRow, demoCleanRow3] : List CleanSalesRow).get ⟨i, hi⟩).gender
            ∧ (build_dim_customer [demoCleanRow, demoCleanRow3] 0).rows.headI.age =
                (([demoCleanRow, demoCleanRow3] : List CleanSalesRow).get ⟨i, hi⟩).age) :=
  ⟨(C3_customer_scd_rows [demoCleanRow, demoCleanRow3] 0).1,
   (C3_customer_scd_rows [demoCleanRow, demoCleanRow3] 0).2.1 "C1",
   (C3_customer_scd_rows [demoCleanRow, demoCleanRow3] 0).2.2 _ (by decide)⟩

/-- Auxiliary: the (customer_id, customer_key) pairs of the Customer
dimension depend only on the sorted distinct ids. -/
theorem dimCustomer_pairs (rows : List CleanSalesRow) (now : ℕ) :
    (build_dim_customer rows now).rows.map (fun r => (r.customer_id, r.customer_key))
      = (sortedUniqueIds rows).enum.map (fun p => (p.2, p.1 + 1)) := by
  show List.map _ (List.map _ _) = _
  rw [List.map_map]
  rfl

/-- **C10.** Surrogate keys of the Customer dimension are assigned
1..N over the distinct customer ids in ascending id order, so the
(id, key) association is independent of the input row order. -/
theorem C10_customer_key_order (rows : List CleanSalesRow) (now : ℕ) :
    ((build_dim_customer rows now).rows.map (fun r => r.customer_id)).Pairwise
      (fun a b => strLeB a b = true)
    ∧ ((build_dim_customer rows now).rows.map (fun r => r.customer_id)).Nodup
    ∧ (build_dim_customer rows now).rows.map (fun r => r.customer_key)
        = List.range' 1 (sortedUniqueIds rows).length
    ∧ (∀ rows2 (now2 : ℕ), rows.Perm rows2 →
        (build_dim_customer rows now).rows.map (fun r => (r.customer_id, r.customer_key))
          = (build_dim_customer rows2 now2).rows.map
              (fun r => (r.customer_id, r.customer_key))) := by
  refine ⟨?_, ?_, ?_, ?_⟩
  · rw [dimCustomer_ids]
    exact sortStrings_sorted _
  · rw [dimCustomer_ids]
    exact ((sortStrings_perm _).nodup_iff).mpr (List.nodup_dedup _)
  · show List.map _ (List.map _ _) = _
    rw [List.map_map]
    show List.map (fun p : ℕ × String => p.1 + 1) (sortedUniqueIds rows).enum = _
    rw [show (fun p : ℕ × String => p.1 + 1) = ((fun n => n + 1) ∘ Prod.fst) from rfl,
      ← List.map_map, List.enum_map_fst, List.range'_eq_map_range]
    exact List.map_congr_left (fun a _ => by omega)
  · intro rows2 now2 hperm
    rw [dimCustomer_pairs, dimCustomer_pairs]
    have : sortedUniqueIds rows = sortedUniqueIds rows2 :=
      sortStrings_dedup_eq (hperm.map (fun r => r.customer_id))
    rw [this]

/-- Witness for C10 at a concrete input: reversing the two-row input
leaves the (customer_id, customer_key) association unchanged. -/
theorem C10_customer_key_order_witness :
    (((build_dim_customer [demoCleanRow, demoCleanRow2] 0).rows.map
        (fun r => r.customer_id)).Pairwise (fun a b => strLeB a b = true))
    ∧ (((build_dim_customer [demoCleanRow, demoCleanRow2] 0).rows.map
        (fun r => r.customer_id)).Nodup)
    ∧ (build_dim_customer [demoCleanRow, demoCleanRow2] 0).rows.map
        (fun r => r.customer_key)
        = List.range' 1 (sortedUniqueIds [demoCleanRow, demoCleanRow2]).length
    ∧ (build_dim_customer [demoCleanRow, demoCleanRow2] 0).rows.map
        (fun r => (r.customer_id, r.customer_key))
        = (build_dim_customer [demoCleanRow2, demoCleanRow] 7).rows.map
            (fun r => (r.customer_id, r.customer_key)) :=
  ⟨(C10_customer_key_order [demoCleanRow, demoCleanRow2] 0).1,
   (C10_customer_key_order [demoCleanRow, demoCleanRow2] 0).2.1,
   (C10_customer_key_order [demoCleanRow, demoCleanRow2] 0).2.2.1,
   (C10_customer_key_order [demoCleanRow, demoCleanRow2] 0).2.2.2
     [demoCleanRow2, demoCleanRow] 7 (List.Perm.swap demoCleanRow2 demoCleanRow [])⟩

/-- Boolean characterisation of the chronological key order. -/
theorem ymLE_iff (a b : ℕ × ℕ × String) :
    ymLE a b = true ↔ (a.1 < b.1 ∨ (a.1 = b.1 ∧ a.2.1 ≤ b.2.1)) := by
  unfold ymLE
  split_ifs with h1 h2
  · simp; omega
  · simp; omega
  · simp only [decide_eq_true_eq]
    omega

theorem ymLE_trans (a b c : ℕ × ℕ × String) (h1 : ymLE a b = true)
    (h2 : ymLE b c = true) : ymLE a c = true := by
  rw [ymLE_iff] at *
  omega

theorem ymLE_total (a b : ℕ × ℕ × String) : ymLE a b = true ∨ ymLE b a = true := by
  rw [ymLE_iff, ymLE_iff]
  omega

/-- Auxiliary: the growth pass does not change the grouping keys. -/
theorem addGrowth_map_ym (prev : Option ℚ) (l : List MartARow) :
    (addGrowth prev l).map (fun r => (r.year, r.month))
      = l.map (fun r => (r.year, r.month)) := by
  induction l generalizing prev with
  | nil => rfl
  | cons r rs ih => simp only [addGrowth, List.map_cons, ih]; rfl

/-- Auxiliary: adjacent rows of the growth pass are linked by the
shifted revenue. -/
theorem addGrowth_adjacent (l : List MartARow) :
    ∀ (prev : Option ℚ) (i : ℕ) a b, (addGrowth prev l)[i]? = some a →
      (addGrowth prev l)[i + 1]? = some b →
      b.revenue_prev_month = some a.total_revenue
        ∧ b.revenue_growth_pct = growthPct b.total_revenue a.total_revenue := by
  induction l with
  | nil => intro prev i a b h1 _; simp [addGrowth] at h1
  | cons r rs ih =>
    intro prev i a b h1 h2
    rw [show addGrowth prev (r :: rs)
      = updGrowthRow prev r :: addGrowth (some r.total_revenue) rs from rfl] at h1 h2
    cases i with
    | zero =>
      rw [List.getElem?_cons_zero] at h1
      obtain rfl := Option.some.inj h1
      rw [List.getElem?_cons_succ] at h2
      cases rs with
      | nil => simp [addGrowth] at h2
      | cons s ss =>
        rw [show addGrowth (some r.total_revenue) (s :: ss)
          = updGrowthRow (some r.total_revenue) s :: addGrowth (some s.total_revenue) ss
          from rfl, List.getElem?_cons_zero] at h2
        obtain rfl := Option.some.inj h2
        exact ⟨rfl, rfl⟩
    | succ i =>
      rw [List.getElem?_cons_succ] at h1 h2
      exact ih (some r.total_revenue) i a b h1 h2

/-- Auxiliary: the first row of the growth pass over a null seed has a
null previous-month revenue and NaN growth. -/
theorem addGrowth_head (l : List MartARow) (a : MartARow)
    (h : (addGrowth none l)[0]? = some a) :
    a.revenue_prev_month = none ∧ a.revenue_growth_pct = .nan := by
  cases l with
  | nil => simp [addGrowth] at h
  | cons r rs =>
    rw [show addGrowth none (r :: rs)
      = updGrowthRow none r :: addGrowth (some r.total_revenue) rs from rfl,
      List.getElem?_cons_zero] at h
    obtain rfl := Option.some.inj h
    exact ⟨rfl, rfl⟩

/-- **C6 (amended).** The Sales Performance mart is sorted
chronologically by (year, month); the first row's previous-month
revenue and growth are null (NaN); every later row holds the previous
row's revenue, and its growth is `(curr - prev) / prev * 100` rounded
to two decimals (an IEEE infinity or NaN when the previous revenue is
zero). -/
theorem C6_sales_performance_growth (fact : FactTable) (dimD : List DateRow)
    (dimC : CustomerTable) (now : ℕ) :
    (((build_mart_sales_performance fact dimD dimC now).rows.map
        (fun r => (r.year, r.month))).Pairwise
      (fun a b => a.1 < b.1 ∨ (a.1 = b.1 ∧ a.2 ≤ b.2)))
    ∧ (∀ a, (build_mart_sales_performance fact dimD dimC now).rows[0]? = some a →
        a.revenue_prev_month = none ∧ a.revenue_growth_pct = .nan)
    ∧ (∀ i a b, (build_mart_sales_performance fact dimD dimC now).rows[i]? = some a →
        (build_mart_sales_performance fact dimD dimC now).rows[i + 1]? = some b →
        b.revenue_prev_month = some a.total_revenue
          ∧ b.revenue_growth_pct =
              (if a.total_revenue = 0 then
                (if 0 < qSub b.total_revenue a.total_revenue then PVal.pinf
                 else if qSub b.total_revenue a.total_revenue < 0 then PVal.ninf
                 else PVal.nan)
               else .num (round2 (qMul
                 (qDiv (qSub b.total_revenue a.total_revenue) a.total_revenue)
                 (Rat.ofInt 100))))) := by
  refine ⟨?_, ?_, ?_⟩
  · show ((addGrowth none _).map (fun r => (r.year, r.month))).Pairwise _
    rw [addGrowth_map_ym]
    show ((List.map _ (List.map _ (insertionSort ymLE _))).Pairwise _)
    rw [List.map_map]
    have hs := sorted_insertionSort ymLE_trans ymLE_total
      ((fact.rows.filterMap (fun f =>
        (dimD.find? (fun d => d.date_key == f.date_key)).map (fun d => (f, d)))).map
          (fun x => (x.2.year, x.2.month, x.2.month_name))).dedup
    rw [List.pairwise_map]
    refine hs.imp ?_
    intro a b hab
    have := (ymLE_iff a b).mp hab
    simpa using this
  · intro a ha
    exact addGrowth_head _ a ha
  · intro i a b h1 h2
    have hadj := addGrowth_adjacent _ none i a b h1 h2
    refine ⟨hadj.1, ?_⟩
    rw [hadj.2]
    simp only [growthPct, pctDiv]

/-- A two-month fact table: revenue 3 in 2023-01, revenue 4 in 2023-02. -/
def demoFactA : FactTable :=
  ⟨[{ transaction_id := 1, date_key := 20230105, customer_key := none, category_key := none,
      quantity := some 1, price_per_unit := some 3, total_amount := some 3,
      customer_id := "C1", product_category := "Beauty", gender := "Female", age := 30,
      extracted_at := "t", source := "s", sales_key := 1 },
    { transaction_id := 2, date_key := 20230207, customer_key := none, category_key := none,
      quantity := some 1, price_per_unit := some 4, total_amount := some 4,
      customer_id := "C1", product_category := "Beauty", gender := "Female", age := 30,
      extracted_at := "t", source := "s", sales_key := 2 }], 0⟩

def demoDimD2 : List DateRow :=
  [mkDateRow ⟨2023, 1, 5⟩, mkDateRow ⟨2023, 2, 7⟩]

def demoMartA : MartATable :=
  build_mart_sales_performance demoFactA demoDimD2 ⟨[], 0⟩ 0

def demoMartARow0 : MartARow := (demoMartA.rows[0]?).getD default
def demoMartARow1 : MartARow := (demoMartA.rows[1]?).getD default

/-- Witness for the amended C6 at a concrete two-month input. -/
theorem C6_sales_performance_growth_witness :
    ((demoMartA.rows.map (fun r => (r.year, r.month))).Pairwise
      (fun a b => a.1 < b.1 ∨ (a.1 = b.1 ∧ a.2 ≤ b.2)))
    ∧ (demoMartARow0.revenue_prev_month = none
        ∧ demoMartARow0.revenue_growth_pct = .nan)
    ∧ (demoMartARow1.revenue_prev_month = some demoMartARow0.total_revenue
        ∧ demoMartARow1.revenue_growth_pct =
            (if demoMartARow0.total_revenue = 0 then
              (if 0 < qSub demoMartARow1.total_revenue demoMartARow0.total_revenue
               then PVal.pinf
               else if qSub demoMartARow1.total_revenue demoMartARow0.total_revenue < 0
               then PVal.ninf else PVal.nan)
             else .num (round2 (qMul
               (qDiv (qSub demoMartARow1.total_revenue demoMartARow0.total_revenue)
                 demoMartARow0.total_revenue)
               (Rat.ofInt 100))))) :=
  ⟨(C6_sales_performance_growth demoFactA demoDimD2 ⟨[], 0⟩ 0).1,
   (C6_sales_performance_growth demoFactA demoDimD2 ⟨[], 0⟩ 0).2.1
     demoMartARow0 (by decide),
   (C6_sales_performance_growth demoFactA demoDimD2 ⟨[], 0⟩ 0).2.2
     0 demoMartARow0 demoMartARow1 (by decide) (by decide)⟩

/-- Counterexample to C6 as stated: with January revenue 3 and February
revenue 4, the stored growth is the rounded 33.33, which differs from
the exact `(4 - 3) / 3 * 100`. -/
theorem C6_growth_rounding_counterexample :
    (demoMartA.rows.map
        (fun r => (r.total_revenue, r.revenue_prev_month, r.revenue_growth_pct)))
      = [((3 : ℚ), none, PVal.nan),
         ((4 : ℚ), some (3 : ℚ), PVal.num (qDivInt 3333 100))]
    ∧ PVal.num (qDivInt 3333 100)
        ≠ PVal.num (qMul (qDiv (qSub (4 : ℚ) (3 : ℚ)) (3 : ℚ)) (Rat.ofInt 100)) := by
  decide

/-- **C7 (amended).** The gender percentage fields of the Category
Analysis mart are computed for *every* category as soon as both
`Female` and `Male` occur anywhere in the fact table (a gender missing
in a particular category contributes the pivot fill value 0); they are
null (NaN) for every category when one of the two genders is absent
from the whole table, and NaN for a category whose combined
female+male revenue is zero with zero female revenue.  When computed,
`female_pct = round2(F / (F + M) * 100)` and `male_pct = 100 − female_pct`. -/
theorem C7_gender_split (fact : FactTable) (dimCat : CategoryTable)
    (dimC : CustomerTable) (now : ℕ) :
    ∀ r ∈ (build_mart_category_analysis fact dimCat dimC now).rows,
      ((("Female" ∈ fact.rows.map (fun x => x.gender))
          ∧ ("Male" ∈ fact.rows.map (fun x => x.gender))) →
        r.female_revenue_pct =
          (if qAdd (genderRevenue fact.rows r.product_category "Female")
              (genderRevenue fact.rows r.product_category "Male") = 0 then
            (if 0 < genderRevenue fact.rows r.product_category "Female" then PVal.pinf
             else if genderRevenue fact.rows r.product_category "Female" < 0 then PVal.ninf
             else PVal.nan)
           else .num (round2 (qMul
             (qDiv (genderRevenue fact.rows r.product_category "Female")
               (qAdd (genderRevenue fact.rows r.product_category "Female")
                 (genderRevenue fact.rows r.product_category "Male")))
             (Rat.ofInt 100))))
        ∧ r.male_revenue_pct = sub100 r.female_revenue_pct)
      ∧ (¬ (("Female" ∈ fact.rows.map (fun x => x.gender))
          ∧ ("Male" ∈ fact.rows.map (fun x => x.gender))) →
        r.female_revenue_pct = .nan ∧ r.male_revenue_pct = .nan) := by
  intro r hr
  obtain ⟨c, hc, rfl⟩ := List.mem_map.mp hr
  constructor
  · rintro ⟨hF, hM⟩
    have hb : (decide ("Female" ∈ fact.rows.map (fun x => x.gender))
        && decide ("Male" ∈ fact.rows.map (fun x => x.gender))) = true := by
      rw [decide_eq_true hF, decide_eq_true hM]
      rfl
    constructor
    · show (if (decide _ && decide _) = true then _ else _) = _
      rw [hb]
      simp only [if_true, pctDiv]
      rfl
    · show (if (decide _ && decide _) = true then _ else _) = sub100 _
      rw [hb]
      simp only [if_true]
      rfl
  · intro hnot
    have hb : (decide ("Female" ∈ fact.rows.map (fun x => x.gender))
        && decide ("Male" ∈ fact.rows.map (fun x => x.gender))) = false := by
      by_cases hF : "Female" ∈ fact.rows.map (fun x => x.gender)
      · by_cases hM : "Male" ∈ fact.rows.map (fun x => x.gender)
        · exact absurd ⟨hF, hM⟩ hnot
        · simp [hM]
      · simp [hF]
    constructor
    · show (if (decide _ && decide _) = true then _ else _) = _
      rw [hb]
      simp
    · show (if (decide _ && decide _) = true then _ else _) = _
      rw [hb]
      simp

/-- A fact table with category A bought by both genders (Female 1,
Male 2) and category B bought only by a Female customer (1). -/
def demoFactB : FactTable :=
  ⟨[{ transaction_id := 1, date_key := 20230105, customer_key := none, category_key := none,
      quantity := some 1, price_per_unit := some 1, total_amount := some 1,
      customer_id := "C1", product_category := "A", gender := "Female", age := 30,
      extracted_at := "t", source := "s", sales_key := 1 },
    { transaction_id := 2, date_key := 20230105, customer_key := none, category_key := none,
      quantity := some 1, price_per_unit := some 2, total_amount := some 2,
      customer_id := "C2", product_category := "A", gender := "Male", age := 40,
      extracted_at := "t", source := "s", sales_key := 2 },
    { transaction_id := 3, date_key := 20230105, customer_key := none, category_key := none,
      quantity := some 1, price_per_unit := some 1, total_amount := some 1,
      customer_id := "C3", product_category := "B", gender := "Female", age := 50,
      extracted_at := "t", source := "s", sales_key := 3 }], 0⟩

def demoMartB : MartBTable :=
  build_mart_category_analysis demoFactB ⟨[], 0⟩ ⟨[], 0⟩ 0

/-- The "B" row of the demonstration category mart. -/
def demoMartBRow : MartBRow := (demoMartB.rows[1]?).getD default

/-- Witness for the amended C7 at a concrete input: category B's
percentages are computed from the 0-filled pivot. -/
theorem C7_gender_split_witness :
    demoMartBRow.female_revenue_pct =
      (if qAdd (genderRevenue demoFactB.rows demoMartBRow.product_category "Female")
          (genderRevenue demoFactB.rows demoMartBRow.product_category "Male") = 0 then
        (if 0 < genderRevenue demoFactB.rows demoMartBRow.product_category "Female"
         then PVal.pinf
         else if genderRevenue demoFactB.rows demoMartBRow.product_category "Female" < 0
         then PVal.ninf else PVal.nan)
       else .num (round2 (qMul
         (qDiv (genderRevenue demoFactB.rows demoMartBRow.product_category "Female")
           (qAdd (genderRevenue demoFactB.rows demoMartBRow.product_category "Female")
             (genderRevenue demoFactB.rows demoMartBRow.product_category "Male")))
         (Rat.ofInt 100))))
    ∧ demoMartBRow.male_revenue_pct = sub100 demoMartBRow.female_revenue_pct :=
  ((C7_gender_split demoFactB ⟨[], 0⟩ ⟨[], 0⟩ 0 demoMartBRow (by decide)).1
    ⟨by decide, by decide⟩)

/-- Counterexample to C7 as stated: category B has no Male revenue at
all, yet its gender percentages are computed (100 / 0), not null. -/
theorem C7_per_category_counterexample :
    (demoMartB.rows.map
        (fun r => (r.product_category, r.female_revenue_pct, r.male_revenue_pct)))
      = [("A", PVal.num (qDivInt 3333 100), PVal.num (qDivInt 6667 100)),
         ("B", PVal.num (Rat.ofInt 100), PVal.num 0)]
    ∧ (∀ x ∈ demoFactB.rows, ¬(x.product_category = "B" ∧ x.gender = "Male"))
    ∧ PVal.num (Rat.ofInt 100) ≠ PVal.nan := by
  decide

/-- The output mapping with every wall-clock-derived column removed:
the `_loaded_at` / `_mart_generated_at` stamps, and `dim_product`'s
`effective_start_date` (which the source also sets to `utcnow()`). -/
structure StrippedResult where
  stg_retail_sales : List CleanSalesRow
  stg_api_products : List CleanProductRow
  dim_date : List DateRow
  dim_customer : List CustomerRow
  dim_product : List ProductDimRow
  dim_product_category : List CategoryRow
  fact_sales : List FactRow
  mart_sales_performance : List MartARow
  mart_category_analysis : List MartBRow
deriving DecidableEq

def stripProductRow (r : ProductDimRow) : ProductDimRow :=
  { r with effective_start_date := 0 }

def eraseTimestamps (t : TransformResult) : StrippedResult :=
  { stg_retail_sales := t.stg_retail_sales
    stg_api_products := t.stg_api_products
    dim_date := t.dim_date
    dim_customer := t.dim_customer.rows
    dim_product := t.dim_product.rows.map stripProductRow
    dim_product_category := t.dim_product_category.rows
    fact_sales := t.fact_sales.rows
    mart_sales_performance := t.mart_sales_performance.rows
    mart_category_analysis := t.mart_category_analysis.rows }

/-- Auxiliary: the Product dimension is clock-independent after its
`effective_start_date` column is removed. -/
theorem stripProduct_indep (ps : List CleanProductRow) (t1 t2 : ℕ) :
    (build_dim_product ps t1).rows.map stripProductRow
      = (build_dim_product ps t2).rows.map stripProductRow := by
  show List.map _ (List.map _ _) = List.map _ (List.map _ _)
  rw [List.map_map, List.map_map]
  rfl

/-- **C5 (amended).** Two runs of `transform_all` on identical input
agree on every output table once the wall-clock-derived columns
(`_loaded_at`, `_mart_generated_at`, `dim_product.effective_start_date`)
are removed — in particular all surrogate keys are identical. -/
theorem C5_determinism_modulo_timestamps (x : ExtractedData) (t1 t2 : ℕ) :
    (transform_all x t1).map eraseTimestamps = (transform_all x t2).map eraseTimestamps := by
  unfold transform_all
  cases h : transformStages x with
  | error e => rfl
  | ok t =>
    show Except.ok (eraseTimestamps (assembleResult x.api_categories t1 t))
      = Except.ok (eraseTimestamps (assembleResult x.api_categories t2 t))
    refine congrArg Except.ok ?_
    simp only [eraseTimestamps]
    congr 1
    exact stripProduct_indep t.2.1 t1 t2

/-- A raw catalog product row and its frame, for the demonstration run. -/
def demoProductRow : RawProductRow :=
  { id := 1, title := " Gold Ring ", price := some 99, description := "a ring",
    category := "jewelery", image := "http", rating_rate := some 4,
    rating_count := some 10, extracted_at := "t", source := "fake_store_api" }

def demoProductFrame : ProductFrame :=
  ⟨["id", "title", "price", "description", "category", "image",
    "rating_rate", "rating_count", "_extracted_at", "_source"], [demoProductRow]⟩

def demoExtract : ExtractedData :=
  ⟨demoSalesFrame, demoProductFrame, ["electronics"]⟩

/-- Counterexample to C5 as stated: two runs on identical input differ
in a non-surrogate-key output column — the Customer dimension's
`_loaded_at` stamp. -/
theorem C5_loaded_at_counterexample :
    (transform_all demoExtract 0).toOption.map (fun r => r.dim_customer.loadedAt)
      ≠ (transform_all demoExtract 1).toOption.map (fun r => r.dim_customer.loadedAt) := by
  decide

end RetailETL
